import Mathlib

/-!
A shallow embedding, in Lean 4, of the session-management core of the
kubeswitch command-line tool (package `kubeswitch`).

The embedding follows the Go source closely:

* `Config` models `api.Config` restricted to the fields the session manager
  reads or writes (`Contexts`, a `map[string]*api.Context` rendered as an
  association list, and `CurrentContext`); `clusters`/`users` records are
  opaque pass-through data that no modelled operation touches, so they are
  omitted.
* Side-effecting operations (`writeConfig`, `setupSession`, `SetContext`,
  `SetNamespace`, `Purge`) are rendered as pure functions that return the
  ordered list of observable effects (`Event`) they would perform, together
  with the updated in-memory state.  Filesystem writes are modelled as
  succeeding; the error value a Go function returns is modelled explicitly
  only where the source itself produces it (validation failures).
* The process environment is an association list; `os.Getenv` yields `""`
  for unset names, exactly as in Go.
* `time.Now().UnixNano()` is an explicit `now : Nat` parameter;
  `time.Time.AddDate(0, 0, -days)` is modelled as subtracting
  `days * 86400e9` nanoseconds (calendar irregularities abstracted away).
-/

/-- `EnvVarActive`: the env var that marks a shell started by kubeswitch. -/
def EnvVarActive : String := "KUBESWITCH_ACTIVE"

/-- `EnvVarConfig`: the env var that points to a session's kube config. -/
def EnvVarConfig : String := "KUBECONFIG"

/-- A process environment: an association list from variable name to value. -/
abbrev Env := List (String × String)

/-- `os.Getenv`: the value of `name`, or `""` when `name` is unset. -/
def getEnv (env : Env) (name : String) : String :=
  (env.lookup name).getD ""

/-- A kube context entry (`api.Context`): cluster/user references and the
default namespace. -/
structure Context where
  cluster : String
  authInfo : String
  «namespace» : String
deriving DecidableEq, Repr

/-- The merged kube configuration (`api.Config`), restricted to the fields the
session manager manipulates.  The Go `Contexts map[string]*api.Context` is an
association list here; Go map keys are unique but no operation below needs
that assumption. -/
structure Config where
  contexts : List (String × Context)
  currentContext : String
deriving DecidableEq, Repr

/-- `Kubeswitch` holds the loaded kube config and the namespaces fetched live
from Kubernetes (`corev1.NamespaceList`, reduced to the item names, which is
all the source ever reads from it). -/
structure Kubeswitch where
  config : Config
  namespaces : List String
deriving DecidableEq, Repr

/-- `kubeDir()`: the default kube folder under the user's home directory. -/
def kubeDir (home : String) : String := home ++ "/.kube"

/-- `sessionDir()`: where kubeswitch stores copied config session files. -/
def sessionDir (home : String) : String := kubeDir home ++ "/tmp"

/-- One observable side effect of a session commit: a file write, a file
rename (never emitted by this program; present so that the atomic
write-then-rename discipline is expressible), an environment-variable
mutation, or a `syscall.Exec` replacing the process image with a shell. -/
inductive Event where
  | write (path : String) (content : Config)
  | rename (src : String) (dest : String)
  | setEnv (name : String) (value : String)
  | execShell (shellPath : String)
deriving DecidableEq, Repr

/-- `strings.ToUpper`, mapped over the characters of the string.  (Lean's
own `String.toUpper` is defined by well-founded recursion, which the kernel
cannot evaluate, so the embedding maps `Char.toUpper` structurally over the
underlying character list instead; the two agree.) -/
def strToUpper (s : String) : String := String.mk (s.data.map Char.toUpper)

/-- Lexicographic "less than or equal" on character lists, the order
`sort.Strings` sorts by: compare the first differing characters, a prefix
sorts before its extensions. -/
def leChars : List Char → List Char → Bool
  | [], _ => true
  | _ :: _, [] => false
  | a :: as, b :: bs =>
    if a < b then true
    else if b < a then false
    else leChars as bs

/-- Lexicographic "less than or equal" on strings. -/
def strLe (a b : String) : Bool := leChars a.data b.data

/-- `IsActive()`: true iff `strings.ToUpper(os.Getenv(EnvVarActive))` equals
`"TRUE"`. -/
def IsActive (env : Env) : Bool :=
  strToUpper (getEnv env EnvVarActive) == "TRUE"

/-- `writeConfig(path)`: marshals the config and writes it to `path` with a
single direct `ioutil.WriteFile` / `clientcmd.WriteToFile` call.  The effect
is one `Event.write` at the destination path. -/
def writeConfig (cfg : Config) (path : String) : List Event :=
  [Event.write path cfg]

/-- `setupSession()`: if already inside a kubeswitch session, write the config
back to the path in `KUBECONFIG`; otherwise write it to a fresh timestamped
file under the session directory, set `KUBESWITCH_ACTIVE` and `KUBECONFIG`,
and exec the shell named by `SHELL`. -/
def setupSession (cfg : Config) (env : Env) (home : String) (now : Nat) : List Event :=
  if IsActive env then
    writeConfig cfg (getEnv env EnvVarConfig)
  else
    let kubePath := sessionDir home ++ "/config_" ++ toString now
    writeConfig cfg kubePath ++
      [Event.setEnv EnvVarActive "TRUE",
       Event.setEnv EnvVarConfig kubePath,
       Event.execShell (getEnv env "SHELL")]

/-- `ListContexts()`: the context names of the loaded config, sorted
ascending (`sort.Strings`). -/
def ListContexts (k : Kubeswitch) : List String :=
  List.insertionSort (fun a b => strLe a b = true) (k.config.contexts.map Prod.fst)

/-- `IsValidContext(ctx)`: true iff `ctx` occurs in `ListContexts()`. -/
def IsValidContext (k : Kubeswitch) (ctx : String) : Bool :=
  (ListContexts k).any (fun c => ctx == c)

/-- `ListNamespaces()`: the names of the namespaces fetched from Kubernetes,
sorted ascending (`sort.Strings`). -/
def ListNamespaces (k : Kubeswitch) : List String :=
  List.insertionSort (fun a b => strLe a b = true) k.namespaces

/-- `IsValidNamespace(ns)`: true iff `ns` is among the fetched namespaces. -/
def IsValidNamespace (k : Kubeswitch) (ns : String) : Bool :=
  k.namespaces.any (fun n => n == ns)

/-- The outcome of one mutating call: the (possibly updated) in-memory state,
the ordered effects performed, and the returned Go `error` (`none` = nil). -/
structure StepResult where
  state : Kubeswitch
  trace : List Event
  err : Option String
deriving DecidableEq, Repr

/-- `SetContext(ctx)`: reject an invalid context with
`"invalid context, <ctx>"`, else set `CurrentContext` and run
`setupSession`. -/
def SetContext (k : Kubeswitch) (ctx : String) (env : Env) (home : String)
    (now : Nat) : StepResult :=
  if !(IsValidContext k ctx) then
    { state := k, trace := [], err := some ("invalid context, " ++ ctx) }
  else
    let k' : Kubeswitch := { k with config := { k.config with currentContext := ctx } }
    { state := k', trace := setupSession k'.config env home now, err := none }

/-- The loop body of `SetNamespace`: for every entry whose key equals the
current context name, set its `Namespace` field (the Go map holds `*Context`
pointers, so the in-place assignment is visible in the config). -/
def setNamespaceInContexts (cts : List (String × Context)) (cur ns : String) :
    List (String × Context) :=
  cts.map (fun p => if p.1 == cur then (p.1, { p.2 with «namespace» := ns }) else p)

/-- `SetNamespace(ns)`: reject an invalid namespace with
`"invalid namespace, <ns>"`, else set the current context's default namespace
and run `setupSession`. -/
def SetNamespace (k : Kubeswitch) (ns : String) (env : Env) (home : String)
    (now : Nat) : StepResult :=
  if !(IsValidNamespace k ns) then
    { state := k, trace := [], err := some ("invalid namespace, " ++ ns) }
  else
    let k' : Kubeswitch :=
      { k with config :=
          { k.config with
            contexts := setNamespaceInContexts k.config.contexts k.config.currentContext ns } }
    { state := k', trace := setupSession k'.config env home now, err := none }

/-- Nanoseconds in one day, the unit of `AddDate(0, 0, -days)` in the model. -/
def nsPerDay : Int := 86400000000000

/-- The deletion cutoff computed by `Purge`: `time.Now().AddDate(0,0,-days)`,
as an instant in nanoseconds. -/
def purgeCutoff (now days : Int) : Int := now - days * nsPerDay

/-- One entry of the session-directory listing (`os.FileInfo`): its name and
its modification time in nanoseconds. -/
structure FileInfo where
  name : String
  modTime : Int
deriving DecidableEq, Repr

/-- The loop of `Purge`: for each listed entry whose modification time is
before the cutoff, remove `sessionDir() + "/" + name`.  The returned list is
the ordered sequence of removed paths. -/
def purgeLoop (home : String) (cutoff : Int) : List FileInfo → List String
  | [] => []
  | i :: rest =>
    if i.modTime < cutoff then
      (sessionDir home ++ "/" ++ i.name) :: purgeLoop home cutoff rest
    else
      purgeLoop home cutoff rest

/-- `Purge(days)`: computes the cutoff, lists the session directory with
`ioutil.ReadDir` — whose error is discarded (`dir, _ := ...`), so a failed
listing behaves as an empty one — and deletes every older entry.  `Purge`
returns no error in Go; correspondingly the model's result is just the list
of removed paths. -/
def Purge (home : String) (now days : Int)
    (listing : Except Unit (List FileInfo)) : List String :=
  purgeLoop home (purgeCutoff now days)
    (match listing with
     | Except.error _ => []
     | Except.ok dir => dir)

/-- The session-directory contents left behind by the `Purge` loop: exactly
the listed entries the loop does not remove. -/
def purgeSurvivors (cutoff : Int) : List FileInfo → List FileInfo
  | [] => []
  | i :: rest =>
    if i.modTime < cutoff then
      purgeSurvivors cutoff rest
    else
      i :: purgeSurvivors cutoff rest

/-- Spec-side predicate (for comparison with the code): a trace commits
`dest` atomically when it writes a temporary path and renames it onto
`dest`. -/
def atomicTempRename (tr : List Event) (dest : String) : Prop :=
  ∃ tmp c, tmp ≠ dest ∧ tr = [Event.write tmp c, Event.rename tmp dest]

/-- The rename events of a trace. -/
def renameEvents (tr : List Event) : List Event :=
  tr.filter (fun e =>
    match e with
    | Event.rename _ _ => true
    | _ => false)

/-- The configuration invariant: a non-empty `currentContext` names an
existing entry of `contexts`. -/
def currentContextResolves (cfg : Config) : Prop :=
  cfg.currentContext ≠ "" → cfg.currentContext ∈ cfg.contexts.map Prod.fst

instance (cfg : Config) : Decidable (currentContextResolves cfg) := by
  unfold currentContextResolves
  infer_instance

/-! Concrete instances used by the witnesses. -/

def ctxA : Context := { cluster := "cluster-a", authInfo := "user-a", «namespace» := "default" }

def ctxB : Context := { cluster := "cluster-b", authInfo := "user-b", «namespace» := "default" }

/-- A two-context configuration with current context `"a"` and a live
namespace snapshot containing `"default"` and `"prod"`. -/
def kEx : Kubeswitch :=
  { config := { contexts := [("a", ctxA), ("b", ctxB)], currentContext := "a" },
    namespaces := ["default", "prod"] }

/-- An environment inside an active kubeswitch session. -/
def envActive : Env :=
  [("KUBESWITCH_ACTIVE", "TRUE"), ("KUBECONFIG", "/tmp/sess/config_123"),
   ("SHELL", "/bin/bash")]

/-- An environment outside any kubeswitch session. -/
def envFresh : Env := [("SHELL", "/bin/bash")]

/-! Helper lemmas. -/

/-- Membership in `ListContexts` is membership among the context keys. -/
theorem mem_ListContexts (k : Kubeswitch) (n : String) :
    n ∈ ListContexts k ↔ n ∈ k.config.contexts.map Prod.fst := by
  unfold ListContexts
  exact List.mem_insertionSort _

/-- `IsValidContext` decides membership among the context keys. -/
theorem isValidContext_iff (k : Kubeswitch) (n : String) :
    IsValidContext k n = true ↔ n ∈ k.config.contexts.map Prod.fst := by
  unfold IsValidContext
  rw [List.any_eq_true]
  constructor
  · rintro ⟨c, hc, he⟩
    rw [beq_iff_eq] at he
    subst he
    exact (mem_ListContexts k n).mp hc
  · intro hn
    exact ⟨n, (mem_ListContexts k n).mpr hn, beq_self_eq_true n⟩

/-- `IsValidNamespace` decides membership in the namespace snapshot. -/
theorem isValidNamespace_iff (k : Kubeswitch) (ns : String) :
    IsValidNamespace k ns = true ↔ ns ∈ k.namespaces := by
  unfold IsValidNamespace
  rw [List.any_eq_true]
  constructor
  · rintro ⟨c, hc, he⟩
    rw [beq_iff_eq] at he
    subst he
    exact hc
  · intro hn
    exact ⟨ns, hn, beq_self_eq_true ns⟩

/-- Setting the namespace of the current context leaves the context keys
unchanged. -/
theorem keys_setNamespaceInContexts (cts : List (String × Context)) (cur ns : String) :
    (setNamespaceInContexts cts cur ns).map Prod.fst = cts.map Prod.fst := by
  induction cts with
  | nil => rfl
  | cons p rest ih =>
    unfold setNamespaceInContexts at ih ⊢
    simp only [List.map_cons, List.cons.injEq]
    refine ⟨?_, ih⟩
    by_cases h : p.1 == cur <;> simp [h]

/-- `leChars` decides the Mathlib lexicographic order: `leChars as bs` is
true exactly when `bs` is not lexicographically below `as`. -/
theorem leChars_iff_not_lex : ∀ as bs : List Char,
    leChars as bs = true ↔ ¬ List.Lex (· < ·) bs as
  | [], [] => by
    constructor
    · intro _ h
      cases h
    · intro _
      rfl
  | [], _ :: _ => by
    constructor
    · intro _ h
      cases h
    · intro _
      rfl
  | _ :: _, [] => by
    constructor
    · intro h
      cases h
    · intro h
      exact absurd List.Lex.nil h
  | a :: as, b :: bs => by
    unfold leChars
    rcases lt_trichotomy a b with h | h | h
    · rw [if_pos h]
      constructor
      · intro _ hlex
        cases hlex with
        | cons h' => exact absurd h (lt_irrefl _)
        | rel h' => exact absurd (lt_trans h h') (lt_irrefl _)
      · intro _
        rfl
    · subst h
      rw [if_neg (lt_irrefl a), if_neg (lt_irrefl a)]
      rw [leChars_iff_not_lex as bs]
      constructor
      · intro hn hlex
        cases hlex with
        | cons h' => exact hn h'
        | rel h' => exact absurd h' (lt_irrefl _)
      · intro hn hlex
        exact hn (List.Lex.cons hlex)
    · rw [if_neg (lt_asymm h), if_pos h]
      constructor
      · intro hf
        cases hf
      · intro hn
        exact absurd (List.Lex.rel h) hn

/-- `strLe` agrees with the lexicographic `≤` on `String`. -/
theorem strLe_iff_le (a b : String) : strLe a b = true ↔ a ≤ b := by
  rw [strLe, leChars_iff_not_lex]
  constructor
  · intro hn
    by_contra hle
    exact hn (String.lt_iff_toList_lt.mp (not_le.mp hle))
  · intro hle hlex
    exact absurd (String.lt_iff_toList_lt.mpr hlex) (not_lt.mpr hle)

instance : IsTotal String (fun a b => strLe a b = true) :=
  ⟨fun a b => by
    rcases le_total a b with h | h
    · exact Or.inl ((strLe_iff_le a b).mpr h)
    · exact Or.inr ((strLe_iff_le b a).mpr h)⟩

instance : IsTrans String (fun a b => strLe a b = true) :=
  ⟨fun a b c hab hbc =>
    (strLe_iff_le a c).mpr
      (le_trans ((strLe_iff_le a b).mp hab) ((strLe_iff_le b c).mp hbc))⟩

/-- **C3**: for a configuration with context-name set `C`: `SetContext n`
succeeds for `n ∈ C` and afterwards `currentContext = n`; for `n ∉ C` it
fails with the invalid-context error, leaves the state unchanged, and
performs no write. -/
theorem setContext_valid_succeeds_invalid_fails
    (k : Kubeswitch) (env : Env) (home : String) (now : Nat) (n : String) :
    (n ∈ k.config.contexts.map Prod.fst →
      (SetContext k n env home now).err = none ∧
      (SetContext k n env home now).state.config.currentContext = n) ∧
    (n ∉ k.config.contexts.map Prod.fst →
      (SetContext k n env home now).err = some ("invalid context, " ++ n) ∧
      (SetContext k n env home now).state = k ∧
      (SetContext k n env home now).trace = []) := by
  constructor
  · intro hn
    have hv : IsValidContext k n = true := (isValidContext_iff k n).mpr hn
    simp [SetContext, hv]
  · intro hn
    have hv : IsValidContext k n = false := by
      cases hvb : IsValidContext k n with
      | false => rfl
      | true => exact absurd ((isValidContext_iff k n).mp hvb) hn
    simp [SetContext, hv]

/-- Witness for C3: in `kEx`, `"b"` is a context and `"zzz"` is not. -/
theorem setContext_valid_succeeds_invalid_fails_witness :
    ((SetContext kEx "b" envFresh "/home/u" 7).err = none ∧
      (SetContext kEx "b" envFresh "/home/u" 7).state.config.currentContext = "b") ∧
    ((SetContext kEx "zzz" envFresh "/home/u" 7).err = some ("invalid context, " ++ "zzz") ∧
      (SetContext kEx "zzz" envFresh "/home/u" 7).state = kEx ∧
      (SetContext kEx "zzz" envFresh "/home/u" 7).trace = []) :=
  ⟨(setContext_valid_succeeds_invalid_fails kEx envFresh "/home/u" 7 "b").1 (by decide),
   (setContext_valid_succeeds_invalid_fails kEx envFresh "/home/u" 7 "zzz").2 (by decide)⟩

/-- **C4**: `SetNamespace name` fails with the invalid-namespace error when
`name` is not in the snapshot — no write, state unchanged — and when `name`
is in the snapshot it succeeds and sets the namespace of every context entry
keyed by `currentContext` to `name`. -/
theorem setNamespace_validation_and_update
    (k : Kubeswitch) (env : Env) (home : String) (now : Nat) (ns : String) :
    (ns ∉ k.namespaces →
      (SetNamespace k ns env home now).err = some ("invalid namespace, " ++ ns) ∧
      (SetNamespace k ns env home now).trace = [] ∧
      (SetNamespace k ns env home now).state = k) ∧
    (ns ∈ k.namespaces →
      (SetNamespace k ns env home now).err = none ∧
      ∀ p ∈ (SetNamespace k ns env home now).state.config.contexts,
        p.1 = k.config.currentContext → p.2.«namespace» = ns) := by
  constructor
  · intro hn
    have hv : IsValidNamespace k ns = false := by
      cases hvb : IsValidNamespace k ns with
      | false => rfl
      | true => exact absurd ((isValidNamespace_iff k ns).mp hvb) hn
    simp [SetNamespace, hv]
  · intro hn
    have hv : IsValidNamespace k ns = true := (isValidNamespace_iff k ns).mpr hn
    refine ⟨by simp [SetNamespace, hv], ?_⟩
    intro p hp hcur
    simp only [SetNamespace, hv, Bool.not_true, Bool.false_eq_true, if_false] at hp
    unfold setNamespaceInContexts at hp
    rcases List.mem_map.mp hp with ⟨q, hq, hfq⟩
    by_cases h : (q.1 == k.config.currentContext) = true
    · rw [if_pos h] at hfq
      subst hfq
      rfl
    · rw [if_neg h] at hfq
      subst hfq
      exact absurd (by simp [hcur]) h

/-- Witness for C4: in `kEx`, `"nope"` is not in the snapshot and `"prod"`
is. -/
theorem setNamespace_validation_and_update_witness :
    ((SetNamespace kEx "nope" envActive "/home/u" 5).err =
        some ("invalid namespace, " ++ "nope") ∧
      (SetNamespace kEx "nope" envActive "/home/u" 5).trace = [] ∧
      (SetNamespace kEx "nope" envActive "/home/u" 5).state = kEx) ∧
    ((SetNamespace kEx "prod" envActive "/home/u" 5).err = none ∧
      ∀ p ∈ (SetNamespace kEx "prod" envActive "/home/u" 5).state.config.contexts,
        p.1 = kEx.config.currentContext → p.2.«namespace» = "prod") :=
  ⟨(setNamespace_validation_and_update kEx envActive "/home/u" 5 "nope").1 (by decide),
   (setNamespace_validation_and_update kEx envActive "/home/u" 5 "prod").2 (by decide)⟩

/-- **C9**: the invariant "a non-empty `currentContext` is a key of
`contexts`" is preserved by every successful `SetContext` or `SetNamespace`. -/
theorem mutations_preserve_currentContext_resolves
    (k : Kubeswitch) (name : String) (env : Env) (home : String) (now : Nat)
    (res : StepResult)
    (hinv : currentContextResolves k.config)
    (hres : res = SetContext k name env home now ∨ res = SetNamespace k name env home now)
    (hok : res.err = none) :
    currentContextResolves res.state.config := by
  rcases hres with h | h <;> subst h
  · cases hv : IsValidContext k name with
    | false => simp [SetContext, hv] at hok
    | true =>
      have hmem := (isValidContext_iff k name).mp hv
      unfold currentContextResolves
      simp [SetContext, hv]
      intro _
      simpa using hmem
  · cases hv : IsValidNamespace k name with
    | false => simp [SetNamespace, hv] at hok
    | true =>
      unfold currentContextResolves at hinv ⊢
      simp [SetNamespace, hv, keys_setNamespaceInContexts]
      intro hne
      simpa using hinv hne

/-- **C1**: while a session is active, a successful `SetContext` or
`SetNamespace` commits by exactly one in-place write of the mutated
configuration to the path in `KUBECONFIG` — the trace holds no other write,
no environment mutation and no shell exec. -/
theorem inSession_commit_writes_in_place
    (k : Kubeswitch) (name : String) (env : Env) (home : String) (now : Nat)
    (res : StepResult)
    (hres : res = SetContext k name env home now ∨ res = SetNamespace k name env home now)
    (hact : IsActive env = true)
    (hok : res.err = none) :
    res.trace = [Event.write (getEnv env EnvVarConfig) res.state.config] := by
  rcases hres with h | h <;> subst h
  · cases hv : IsValidContext k name with
    | false => simp [SetContext, hv] at hok
    | true => simp [SetContext, hv, setupSession, hact, writeConfig]
  · cases hv : IsValidNamespace k name with
    | false => simp [SetNamespace, hv] at hok
    | true => simp [SetNamespace, hv, setupSession, hact, writeConfig]

/-- Witness for C1: the spec scenario — active marker set, `KUBECONFIG`
pointing at `/tmp/sess/config_123`, set-namespace `"prod"`. -/
theorem inSession_commit_writes_in_place_witness :
    (SetNamespace kEx "prod" envActive "/home/u" 5).trace =
      [Event.write (getEnv envActive EnvVarConfig)
        (SetNamespace kEx "prod" envActive "/home/u" 5).state.config] :=
  inSession_commit_writes_in_place kEx "prod" envActive "/home/u" 5
    (SetNamespace kEx "prod" envActive "/home/u" 5) (Or.inr rfl) (by decide) (by decide)

/-- **C2**: outside a session, a successful `SetContext` or `SetNamespace`
commits by writing the mutated configuration to
`<sessionDir>/config_<nanosecond timestamp>`, then setting
`KUBESWITCH_ACTIVE` to `"TRUE"` and `KUBECONFIG` to that path, and only then
exec-ing the shell named by `SHELL`. -/
theorem newSession_commit_effect_order
    (k : Kubeswitch) (name : String) (env : Env) (home : String) (now : Nat)
    (res : StepResult)
    (hres : res = SetContext k name env home now ∨ res = SetNamespace k name env home now)
    (hact : IsActive env = false)
    (hok : res.err = none) :
    res.trace =
      [Event.write (sessionDir home ++ "/config_" ++ toString now) res.state.config,
       Event.setEnv EnvVarActive "TRUE",
       Event.setEnv EnvVarConfig (sessionDir home ++ "/config_" ++ toString now),
       Event.execShell (getEnv env "SHELL")] := by
  rcases hres with h | h <;> subst h
  · cases hv : IsValidContext k name with
    | false => simp [SetContext, hv] at hok
    | true => simp [SetContext, hv, setupSession, hact, writeConfig]
  · cases hv : IsValidNamespace k name with
    | false => simp [SetNamespace, hv] at hok
    | true => simp [SetNamespace, hv, setupSession, hact, writeConfig]

/-- Witness for C2: the spec scenario — fresh process, contexts `{a, b}`,
current context `a`, set-context `b`. -/
theorem newSession_commit_effect_order_witness :
    (SetContext kEx "b" envFresh "/home/u" 42).trace =
      [Event.write (sessionDir "/home/u" ++ "/config_" ++ toString 42)
        (SetContext kEx "b" envFresh "/home/u" 42).state.config,
       Event.setEnv EnvVarActive "TRUE",
       Event.setEnv EnvVarConfig (sessionDir "/home/u" ++ "/config_" ++ toString 42),
       Event.execShell (getEnv envFresh "SHELL")] :=
  newSession_commit_effect_order kEx "b" envFresh "/home/u" 42
    (SetContext kEx "b" envFresh "/home/u" 42) (Or.inl rfl) (by decide) (by decide)

/-- **C6**: `IsActive` is true iff the marker variable is set and its
uppercased value is `"TRUE"`; in particular it is false for an unset, empty,
`"false"`, `"1"` or `"yes"` marker, and true for `"true"`. -/
theorem isActive_iff_marker_true (env : Env) :
    (IsActive env = true ↔
      ∃ v, env.lookup EnvVarActive = some v ∧ strToUpper v = "TRUE") ∧
    IsActive [] = false ∧
    IsActive [(EnvVarActive, "")] = false ∧
    IsActive [(EnvVarActive, "false")] = false ∧
    IsActive [(EnvVarActive, "1")] = false ∧
    IsActive [(EnvVarActive, "yes")] = false ∧
    IsActive [(EnvVarActive, "true")] = true := by
  refine ⟨?_, by decide, by decide, by decide, by decide, by decide, by decide⟩
  unfold IsActive getEnv
  cases h : env.lookup EnvVarActive with
  | none =>
    simp only [h, Option.getD_none]
    constructor
    · intro habs
      exact absurd habs (by decide)
    · rintro ⟨v, hv, -⟩
      exact absurd hv (by simp)
  | some v =>
    simp only [h, Option.getD_some, beq_iff_eq]
    constructor
    · intro hvv
      exact ⟨v, rfl, hvv⟩
    · rintro ⟨w, hw, hwt⟩
      cases hw
      exact hwt

/-- **C8**: `ListContexts` and `ListNamespaces` return the names in ascending
lexicographic order — the output is a sorted permutation of the input names,
and it is empty exactly when the input is empty. -/
theorem listings_sorted_perm (k : Kubeswitch) :
    List.Sorted (fun a b : String => a ≤ b) (ListContexts k) ∧
    (ListContexts k).Perm (k.config.contexts.map Prod.fst) ∧
    (ListContexts k = [] ↔ k.config.contexts = []) ∧
    List.Sorted (fun a b : String => a ≤ b) (ListNamespaces k) ∧
    (ListNamespaces k).Perm k.namespaces ∧
    (ListNamespaces k = [] ↔ k.namespaces = []) := by
  refine ⟨(List.sorted_insertionSort _ _).imp fun h => (strLe_iff_le _ _).mp h,
    List.perm_insertionSort _ _, ?_,
    (List.sorted_insertionSort _ _).imp fun h => (strLe_iff_le _ _).mp h,
    List.perm_insertionSort _ _, ?_⟩
  · constructor
    · intro h
      have hp := List.perm_insertionSort (fun a b : String => strLe a b = true)
        (k.config.contexts.map Prod.fst)
      rw [ListContexts] at h
      rw [h] at hp
      exact List.map_eq_nil_iff.mp hp.symm.eq_nil
    · intro h
      simp [ListContexts, h]
  · constructor
    · intro h
      have hp := List.perm_insertionSort (fun a b : String => strLe a b = true) k.namespaces
      rw [ListNamespaces] at h
      rw [h] at hp
      exact hp.symm.eq_nil
    · intro h
      simp [ListNamespaces, h]

/-- The `Purge` loop removes exactly the listed entries older than the
cutoff, in listing order. -/
theorem purgeLoop_eq_filter_map (home : String) (cutoff : Int) (dir : List FileInfo) :
    purgeLoop home cutoff dir =
      (dir.filter fun f => decide (f.modTime < cutoff)).map
        (fun f => sessionDir home ++ "/" ++ f.name) := by
  induction dir with
  | nil => rfl
  | cons i rest ih =>
    by_cases h : i.modTime < cutoff <;> simp [purgeLoop, h, ih]

/-- The surviving entries are exactly the listed ones at or after the
cutoff. -/
theorem purgeSurvivors_eq_filter (cutoff : Int) (dir : List FileInfo) :
    purgeSurvivors cutoff dir = dir.filter fun f => !decide (f.modTime < cutoff) := by
  induction dir with
  | nil => rfl
  | cons i rest ih =>
    by_cases h : i.modTime < cutoff <;> simp [purgeSurvivors, h, ih]

/-- Re-running the `Purge` loop over the survivors removes nothing. -/
theorem purgeLoop_survivors (home : String) (cutoff : Int) (dir : List FileInfo) :
    purgeLoop home cutoff (purgeSurvivors cutoff dir) = [] := by
  induction dir with
  | nil => rfl
  | cons i rest ih =>
    by_cases h : i.modTime < cutoff <;> simp [purgeSurvivors, purgeLoop, h, ih]

/-- **C7**: `Purge` deletes exactly the session-directory entries whose
modification time is strictly before the cutoff `now - days` days — never
touching an entry at or after it — and is idempotent: re-run at the same
instant over the surviving entries, it deletes nothing further. -/
theorem purge_deletes_exactly_stale (home : String) (now days : Int)
    (dir : List FileInfo) :
    Purge home now days (Except.ok dir) =
      (dir.filter fun f => decide (f.modTime < purgeCutoff now days)).map
        (fun f => sessionDir home ++ "/" ++ f.name) ∧
    purgeSurvivors (purgeCutoff now days) dir =
      dir.filter (fun f => !decide (f.modTime < purgeCutoff now days)) ∧
    Purge home now days (Except.ok (purgeSurvivors (purgeCutoff now days) dir)) = [] :=
  ⟨purgeLoop_eq_filter_map home (purgeCutoff now days) dir,
   purgeSurvivors_eq_filter (purgeCutoff now days) dir,
   purgeLoop_survivors home (purgeCutoff now days) dir⟩

/-- **C10**: a failed directory listing is silently discarded (`dir, _ :=
ioutil.ReadDir(...)`): `Purge` deletes nothing, reports no error (its return
carries none), and behaves exactly as on an empty directory. -/
theorem purge_listing_error_ignored (home : String) (now days : Int) :
    Purge home now days (Except.error ()) = [] ∧
    Purge home now days (Except.error ()) = Purge home now days (Except.ok []) :=
  ⟨rfl, rfl⟩

/-- No rename event ever appears in a session commit. -/
theorem renameEvents_setupSession (cfg : Config) (env : Env) (home : String)
    (now : Nat) :
    renameEvents (setupSession cfg env home now) = [] := by
  unfold setupSession
  by_cases h : IsActive env
  · rw [if_pos h]
    rfl
  · rw [if_neg h]
    rfl

/-- Counterexample to **C5**: `writeConfig` emits a single direct write to
the destination path; its trace is not a write-temp-then-rename commit. -/
theorem writeConfig_not_atomic_counterexample :
    writeConfig kEx.config "/home/u/.kube/tmp/config_1" =
      [Event.write "/home/u/.kube/tmp/config_1" kEx.config] ∧
    ¬ atomicTempRename (writeConfig kEx.config "/home/u/.kube/tmp/config_1")
        "/home/u/.kube/tmp/config_1" := by
  refine ⟨rfl, ?_⟩
  rintro ⟨tmp, c, hne, heq⟩
  simp [writeConfig] at heq

/-- Amended **C5**: every configuration write of either session-commit branch
is one direct, non-atomic write to its destination; no temporary path and no
rename is ever used. -/
theorem commit_writes_direct_no_rename
    (k : Kubeswitch) (name : String) (env : Env) (home : String) (now : Nat)
    (path : String) :
    writeConfig k.config path = [Event.write path k.config] ∧
    renameEvents (SetContext k name env home now).trace = [] ∧
    renameEvents (SetNamespace k name env home now).trace = [] := by
  refine ⟨rfl, ?_, ?_⟩
  · cases hv : IsValidContext k name with
    | false => simp [SetContext, hv, renameEvents]
    | true => simp [SetContext, hv, renameEvents_setupSession]
  · cases hv : IsValidNamespace k name with
    | false => simp [SetNamespace, hv, renameEvents]
    | true => simp [SetNamespace, hv, renameEvents_setupSession]

/-- Witness for C9: the invariant holds after `SetContext kEx "b"` starting
from `kEx`, where it holds. -/
theorem mutations_preserve_currentContext_resolves_witness :
    currentContextResolves (SetContext kEx "b" envFresh "/home/u" 7).state.config :=
  mutations_preserve_currentContext_resolves kEx "b" envFresh "/home/u" 7
    (SetContext kEx "b" envFresh "/home/u" 7) (by decide) (Or.inl rfl) (by decide)
